import Mathlib

/-
Verification of the fnord 2D geometry kernel (Pos / Size / Rect / Anchor /
Margin / Padding / Axial / Cardinal).

Embedding conventions:
- f32 scalars are modelled as exact reals; all arithmetic is the exact
  field arithmetic the source formulas denote.
- i8 inset fields (Margin / Padding) are modelled as integers, coerced to
  reals where the source mixes them into coordinate arithmetic.
- methods taking &mut self are modelled as pure functions returning the
  updated value.
- branches that panic on a well-formedness violation are modelled by
  Option, returning none where the source aborts.
-/

namespace Fnord

noncomputable section

/-- 2D point; source: pos_impl.rs, struct Pos. -/
@[ext]
structure Pos where
  x : ℝ
  y : ℝ

/-- Width/height extent; source: size_impl.rs, struct Size. -/
@[ext]
structure Size where
  width : ℝ
  height : ℝ

/-- Axis-aligned rectangle; source: rect_impl.rs, struct Rect. -/
@[ext]
structure Rect where
  min : Pos
  max : Pos

/-- Source: anchor_impl.rs, enum Anchor (nine positions, discriminants 0-8). -/
inductive Anchor where
  | LeftTop
  | LeftCenter
  | LeftBottom
  | BottomCenter
  | RightBottom
  | RightCenter
  | RightTop
  | TopCenter
  | Center
deriving DecidableEq

/-- Source: direction_impl.rs, enum Axial (Right = 0, Up = 1, Left = 2, Down = 3). -/
inductive Axial where
  | Right
  | Up
  | Left
  | Down
deriving DecidableEq

/-- Source: cardinal_impl.rs, enum Cardinal.  The declaration order (and hence
the discriminants 0-7) is Nw, W, Sw, S, Se, E, Ne, N. -/
inductive Cardinal where
  | Nw
  | W
  | Sw
  | S
  | Se
  | E
  | Ne
  | N
deriving DecidableEq

/-- Source: margin_impl.rs, struct Margin (four i8 insets, modelled as ℤ). -/
@[ext]
structure Margin where
  left : ℤ
  top : ℤ
  right : ℤ
  bottom : ℤ

/-- Source: padding_impl.rs, struct Padding (four i8 insets, modelled as ℤ). -/
@[ext]
structure Padding where
  left : ℤ
  top : ℤ
  right : ℤ
  bottom : ℤ

/-- Source: util_impl.rs, fn half: value * 0.5. -/
def half (value : ℝ) : ℝ := value * 0.5

/-- Models f32::midpoint as used by the source (exact average). -/
def f32_midpoint (a b : ℝ) : ℝ := (a + b) / 2

/-- Source: direction_impl.rs, Axial::opposite.  Note the Down arm of the
source match returns Right. -/
def Axial.opposite : Axial → Axial
  | Axial.Right => Axial.Left
  | Axial.Up => Axial.Down
  | Axial.Left => Axial.Right
  | Axial.Down => Axial.Right

/-- Source: anchor_impl.rs, Anchor::invert. -/
def Anchor.invert : Anchor → Anchor
  | Anchor.LeftTop => Anchor.RightBottom
  | Anchor.LeftCenter => Anchor.RightCenter
  | Anchor.LeftBottom => Anchor.RightTop
  | Anchor.BottomCenter => Anchor.TopCenter
  | Anchor.RightBottom => Anchor.LeftTop
  | Anchor.RightCenter => Anchor.LeftCenter
  | Anchor.RightTop => Anchor.LeftBottom
  | Anchor.TopCenter => Anchor.BottomCenter
  | Anchor.Center => Anchor.Center

/-- Models the unsafe transmute of a u8 discriminant (already masked to 0-7)
back into a Cardinal, following the declaration order of the enum. -/
def Cardinal.of_discriminant : ℕ → Cardinal
  | 0 => Cardinal.Nw
  | 1 => Cardinal.W
  | 2 => Cardinal.Sw
  | 3 => Cardinal.S
  | 4 => Cardinal.Se
  | 5 => Cardinal.E
  | 6 => Cardinal.Ne
  | _ => Cardinal.N

/-- Source: margin_impl.rs, Margin::same. -/
def Margin.same (all : ℤ) : Margin := ⟨all, all, all, all⟩

/-- Source: padding_impl.rs, Padding::same. -/
def Padding.same (all : ℤ) : Padding := ⟨all, all, all, all⟩

/-- Source: margin_impl.rs, Margin::to_padding, a same-layout transmute:
the Padding has the identical four field values. -/
def Margin.to_padding (m : Margin) : Padding := ⟨m.left, m.top, m.right, m.bottom⟩

/-- Source: pos_impl.rs, Pos::le (componentwise conjunction). -/
def Pos.le (a other : Pos) : Prop := a.x ≤ other.x ∧ a.y ≤ other.y

/-- Source: pos_impl.rs, Pos::min (componentwise f32 min). -/
def Pos.min (a rhs : Pos) : Pos := ⟨Min.min a.x rhs.x, Min.min a.y rhs.y⟩

/-- Source: pos_impl.rs, Pos::max (componentwise f32 max). -/
def Pos.max (a rhs : Pos) : Pos := ⟨Max.max a.x rhs.x, Max.max a.y rhs.y⟩

/-- Source: pos_impl.rs, Pos::add_dims. -/
def Pos.add_dims (a : Pos) (x y : ℝ) : Pos := ⟨a.x + x, a.y + y⟩

/-- Source: pos_impl.rs, Pos::sub_dims. -/
def Pos.sub_dims (a : Pos) (x y : ℝ) : Pos := ⟨a.x - x, a.y - y⟩

/-- Source: pos_impl.rs, Pos::length_squared. -/
def Pos.length_squared (a : Pos) : ℝ := a.x * a.x + a.y * a.y

/-- Source: pos_impl.rs, Pos::distance_squared:
other.sub_dims(self.x, self.y).length_squared(). -/
def Pos.distance_squared (a other : Pos) : ℝ :=
  (other.sub_dims a.x a.y).length_squared

/-- Source: pos_impl.rs, Pos::distance (sqrt of distance_squared). -/
def Pos.distance (a other : Pos) : ℝ := Real.sqrt (a.distance_squared other)

/-- Source: size_impl.rs, Size::half. -/
def Size.half (s : Size) : Size := ⟨Fnord.half s.width, Fnord.half s.height⟩

/-- Source: size_impl.rs, Size::half_width. -/
def Size.half_width (s : Size) : ℝ := Fnord.half s.width

/-- Source: size_impl.rs, Size::half_height. -/
def Size.half_height (s : Size) : ℝ := Fnord.half s.height

/-- Source: rect_impl.rs, Rect::from_min_max.  The release build is a plain
construction; the documented precondition min.le(max) (a debug-only
assertion in the source) is carried as a hypothesis by the theorems. -/
def Rect.from_min_max (min max : Pos) : Rect := ⟨min, max⟩

/-- Source: rect_impl.rs, Rect::new. -/
def Rect.new (x y width height : ℝ) : Rect :=
  Rect.from_min_max ⟨x, y⟩ ⟨x + width, y + height⟩

/-- Source: rect_impl.rs, Rect::from_points (a two-element array, modelled as
two arguments): min = points[0].min(points[1]), max = points[1].max(points[0]). -/
def Rect.from_points (p0 p1 : Pos) : Rect := ⟨p0.min p1, p1.max p0⟩

/-- Well-formedness invariant from the spec and the from_min_max debug
assertion: min.le(max). -/
def Rect.well_formed (r : Rect) : Prop := r.min.le r.max

/-- Source: rect_impl.rs, Rect::width. -/
def Rect.width (r : Rect) : ℝ := r.max.x - r.min.x

/-- Source: rect_impl.rs, Rect::height. -/
def Rect.height (r : Rect) : ℝ := r.max.y - r.min.y

/-- Source: rect_impl.rs, Rect::size. -/
def Rect.size (r : Rect) : Size := ⟨r.width, r.height⟩

/-- Source: rect_impl.rs, Rect::left_top. -/
def Rect.left_top (r : Rect) : Pos := r.min

/-- Source: rect_impl.rs, Rect::right_top. -/
def Rect.right_top (r : Rect) : Pos := ⟨r.max.x, r.min.y⟩

/-- Source: rect_impl.rs, Rect::left_bottom. -/
def Rect.left_bottom (r : Rect) : Pos := ⟨r.min.x, r.max.y⟩

/-- Source: rect_impl.rs, Rect::right_bottom. -/
def Rect.right_bottom (r : Rect) : Pos := r.max

/-- Source: rect_impl.rs, Rect::left_center. -/
def Rect.left_center (r : Rect) : Pos := ⟨r.min.x, f32_midpoint r.min.y r.max.y⟩

/-- Source: rect_impl.rs, Rect::top_center. -/
def Rect.top_center (r : Rect) : Pos := ⟨f32_midpoint r.min.x r.max.x, r.min.y⟩

/-- Source: rect_impl.rs, Rect::right_center. -/
def Rect.right_center (r : Rect) : Pos := ⟨r.max.x, f32_midpoint r.min.y r.max.y⟩

/-- Source: rect_impl.rs, Rect::bottom_center. -/
def Rect.bottom_center (r : Rect) : Pos := ⟨f32_midpoint r.min.x r.max.x, r.max.y⟩

/-- Source: rect_impl.rs, Rect::center. -/
def Rect.center (r : Rect) : Pos :=
  ⟨f32_midpoint r.min.x r.max.x, f32_midpoint r.min.y r.max.y⟩

/-- Source: rect_impl.rs, Rect::set_left_top (size is read before mutation). -/
def Rect.set_left_top (r : Rect) (left_top : Pos) : Rect :=
  ⟨left_top, left_top.add_dims r.size.width r.size.height⟩

/-- Source: rect_impl.rs, Rect::set_right_top. -/
def Rect.set_right_top (r : Rect) (right_top : Pos) : Rect :=
  ⟨⟨right_top.x - r.size.width, right_top.y⟩,
   ⟨right_top.x, right_top.y + r.size.height⟩⟩

/-- Source: rect_impl.rs, Rect::set_left_bottom. -/
def Rect.set_left_bottom (r : Rect) (left_bottom : Pos) : Rect :=
  ⟨⟨left_bottom.x, left_bottom.y - r.size.height⟩,
   ⟨left_bottom.x + r.size.width, left_bottom.y⟩⟩

/-- Source: rect_impl.rs, Rect::set_right_bottom. -/
def Rect.set_right_bottom (r : Rect) (right_bottom : Pos) : Rect :=
  ⟨⟨right_bottom.x - r.size.width, right_bottom.y - r.size.height⟩,
   right_bottom⟩

/-- Source: rect_impl.rs, Rect::set_left_center. -/
def Rect.set_left_center (r : Rect) (left_center : Pos) : Rect :=
  ⟨⟨left_center.x, left_center.y - r.size.half_height⟩,
   ⟨left_center.x + r.size.width, left_center.y + r.size.half_height⟩⟩

/-- Source: rect_impl.rs, Rect::set_top_center. -/
def Rect.set_top_center (r : Rect) (top_center : Pos) : Rect :=
  ⟨⟨top_center.x - r.size.half_width, top_center.y⟩,
   ⟨top_center.x + r.size.half_width, top_center.y + r.size.height⟩⟩

/-- Source: rect_impl.rs, Rect::set_right_center. -/
def Rect.set_right_center (r : Rect) (right_center : Pos) : Rect :=
  ⟨⟨right_center.x - r.size.width, right_center.y - r.size.half_height⟩,
   ⟨right_center.x, right_center.y + r.size.half_height⟩⟩

/-- Source: rect_impl.rs, Rect::set_bottom_center. -/
def Rect.set_bottom_center (r : Rect) (bottom_center : Pos) : Rect :=
  ⟨⟨bottom_center.x - r.size.half_width, bottom_center.y - r.size.height⟩,
   ⟨bottom_center.x + r.size.half_width, bottom_center.y⟩⟩

/-- Source: rect_impl.rs, Rect::set_center (uses self.size().half()). -/
def Rect.set_center (r : Rect) (center : Pos) : Rect :=
  ⟨⟨center.x - r.size.half.width, center.y - r.size.half.height⟩,
   ⟨center.x + r.size.half.width, center.y + r.size.half.height⟩⟩

/-- Source: rect_impl.rs, Rect::place_anchor (dispatch to the nine setters). -/
def Rect.place_anchor (r : Rect) (anchor : Anchor) (pos : Pos) : Rect :=
  match anchor with
  | Anchor.LeftTop => r.set_left_top pos
  | Anchor.LeftCenter => r.set_left_center pos
  | Anchor.LeftBottom => r.set_left_bottom pos
  | Anchor.BottomCenter => r.set_bottom_center pos
  | Anchor.RightBottom => r.set_right_bottom pos
  | Anchor.RightCenter => r.set_right_center pos
  | Anchor.RightTop => r.set_right_top pos
  | Anchor.TopCenter => r.set_top_center pos
  | Anchor.Center => r.set_center pos

/-- Source: rect_impl.rs, Rect::with_placed_anchor. -/
def Rect.with_placed_anchor (r : Rect) (anchor : Anchor) (pos : Pos) : Rect :=
  r.place_anchor anchor pos

/-- Source: rect_impl.rs, Rect::anchor (dispatch to the nine getters). -/
def Rect.anchor (r : Rect) (anchor : Anchor) : Pos :=
  match anchor with
  | Anchor.LeftTop => r.left_top
  | Anchor.LeftCenter => r.left_center
  | Anchor.LeftBottom => r.left_bottom
  | Anchor.BottomCenter => r.bottom_center
  | Anchor.RightBottom => r.right_bottom
  | Anchor.RightCenter => r.right_center
  | Anchor.RightTop => r.right_top
  | Anchor.TopCenter => r.top_center
  | Anchor.Center => r.center

/-- Source: rect_impl.rs, Rect::move_to_anchor: reads the anchor position,
then places the opposite anchor there; Center leaves the rect unchanged. -/
def Rect.move_to_anchor (r : Rect) (anchor : Anchor) : Rect :=
  match anchor with
  | Anchor.LeftTop => r.set_right_bottom r.left_top
  | Anchor.LeftCenter => r.set_right_center r.left_center
  | Anchor.LeftBottom => r.set_right_top r.left_bottom
  | Anchor.BottomCenter => r.set_top_center r.bottom_center
  | Anchor.RightBottom => r.set_left_top r.right_bottom
  | Anchor.RightCenter => r.set_left_center r.right_center
  | Anchor.RightTop => r.set_left_bottom r.right_top
  | Anchor.TopCenter => r.set_bottom_center r.top_center
  | Anchor.Center => r

/-- Source: rect_impl.rs, Rect::moved_to_anchor. -/
def Rect.moved_to_anchor (r : Rect) (anchor : Anchor) : Rect :=
  r.move_to_anchor anchor

/-- Source: rect_impl.rs, Rect::contains:
min.x <= pos.x && min.y <= pos.y && max.x > pos.x && max.y > pos.y. -/
def Rect.contains (r : Rect) (pos : Pos) : Prop :=
  r.min.x ≤ pos.x ∧ r.min.y ≤ pos.y ∧ r.max.x > pos.x ∧ r.max.y > pos.y

/-- Source: rect_impl.rs, Rect::intersects:
rect.min.x < self.max.x && rect.min.y < self.max.y
&& rect.max.x > self.min.x && rect.max.y > self.min.y. -/
def Rect.intersects (r : Rect) (rect : Rect) : Prop :=
  rect.min.x < r.max.x ∧ rect.min.y < r.max.y
  ∧ rect.max.x > r.min.x ∧ rect.max.y > r.min.y

instance (a b : Rect) : Decidable (a.intersects b) := by
  unfold Rect.intersects
  infer_instance

/-- Source: rect_impl.rs, Rect::intersection: none unless the rects
intersect, otherwise the componentwise max of mins and min of maxes. -/
def Rect.intersection (r : Rect) (other : Rect) : Option Rect :=
  if ¬ r.intersects other then none
  else
    some (Rect.from_min_max
      ⟨Max.max r.min.x other.min.x, Max.max r.min.y other.min.y⟩
      ⟨Min.min r.max.x other.max.x, Min.min r.max.y other.max.y⟩)

/-- Source: rect_impl.rs, Rect::add_padding: moves min inward and max inward
by the padding fields. -/
def Rect.add_padding (r : Rect) (padding : Padding) : Rect :=
  Rect.from_min_max
    ⟨r.min.x + (padding.left : ℝ), r.min.y + (padding.top : ℝ)⟩
    ⟨r.max.x - (padding.right : ℝ), r.max.y - (padding.bottom : ℝ)⟩

/-- Source: rect_impl.rs, Rect::add_margin_centered: moves min outward and
max outward by the margin fields. -/
def Rect.add_margin_centered (r : Rect) (margin : Margin) : Rect :=
  Rect.from_min_max
    ⟨r.min.x - (margin.left : ℝ), r.min.y - (margin.top : ℝ)⟩
    ⟨r.max.x + (margin.right : ℝ), r.max.y + (margin.bottom : ℝ)⟩

/-- Source: rect_impl.rs, Rect::sdf.  The Rust match on the four booleans
(ge_min_x, lt_max_x, ge_min_y, lt_max_y) is rendered as the same decision
tree; the panicking invalid arms (reachable only when min exceeds max on
some axis) are modelled as none. -/
def Rect.sdf (r : Rect) (p : Pos) : Option ℝ :=
  if p.x ≥ r.min.x then
    if p.x < r.max.x then
      if p.y ≥ r.min.y then
        if p.y < r.max.y then
          -- (true, true, true, true): inside, maximum of the four
          -- (all-negative) edge-directed distances
          some (Max.max (Max.max (Max.max
            (r.min.x - p.x) (p.x - r.max.x)) (r.min.y - p.y)) (p.y - r.max.y))
        else
          -- (true, true, true, false)
          some (p.y - r.max.y)
      else
        if p.y < r.max.y then
          -- (true, true, false, true)
          some (r.min.y - p.y)
        else
          -- (true, true, false, false): invalid
          none
    else
      if p.y ≥ r.min.y then
        if p.y < r.max.y then
          -- (true, false, true, true)
          some (p.x - r.max.x)
        else
          -- (true, false, true, false): right_bottom corner
          some (r.right_bottom.distance p)
      else
        if p.y < r.max.y then
          -- (true, false, false, true): right_top corner
          some (r.right_top.distance p)
        else
          -- (true, false, false, false): invalid
          none
  else
    if p.x < r.max.x then
      if p.y ≥ r.min.y then
        if p.y < r.max.y then
          -- (false, true, true, true)
          some (r.min.x - p.x)
        else
          -- (false, true, true, false): left_bottom corner
          some (r.left_bottom.distance p)
      else
        if p.y < r.max.y then
          -- (false, true, false, true): left_top corner
          some (r.left_top.distance p)
        else
          -- (false, true, false, false): invalid
          none
    else
      -- (false, false, _, _): invalid
      none

/-- Source: std f32 constant TAU. -/
def TAU : ℝ := 2 * Real.pi

/-- Source: std f32 constant FRAC_PI_4. -/
def FRAC_PI_4 : ℝ := Real.pi / 4

/-- Source: std f32 constant FRAC_PI_8. -/
def FRAC_PI_8 : ℝ := Real.pi / 8

/-- Rust float truncation (round toward zero), used by the % operator. -/
def f32_trunc (x : ℝ) : ℝ := if 0 ≤ x then (⌊x⌋ : ℝ) else (⌈x⌉ : ℝ)

/-- Rust % on floats: remainder with the sign of the dividend,
a - b * trunc(a / b). -/
def rust_rem (a b : ℝ) : ℝ := a - b * f32_trunc (a / b)

/-- Source: util_impl.rs, fn normalize_angle: (radians % TAU + TAU) % TAU. -/
def normalize_angle (radians : ℝ) : ℝ :=
  rust_rem (rust_rem radians TAU + TAU) TAU

/-- Mathematical atan2 (the exact-real semantics of f32::atan2). -/
def atan2 (y x : ℝ) : ℝ :=
  if 0 < x then Real.arctan (y / x)
  else if x < 0 then
    (if 0 ≤ y then Real.arctan (y / x) + Real.pi
     else Real.arctan (y / x) - Real.pi)
  else
    (if 0 < y then Real.pi / 2
     else if y < 0 then -(Real.pi / 2)
     else 0)

/-- Source: pos_impl.rs, Pos::angle: atan2(-y, x) (y-down convention). -/
def Pos.angle (p : Pos) : ℝ := atan2 (-p.y) p.x

/-- Source: pos_impl.rs, Pos::cardinal: the octant index
floor(normalize_angle(angle + pi/8) / (pi/4)) as u8 masked with 0b111,
transmuted into Cardinal by discriminant. -/
def Pos.cardinal (p : Pos) : Cardinal :=
  Cardinal.of_discriminant
    ((⌊normalize_angle (p.angle + FRAC_PI_8) / FRAC_PI_4⌋).toNat % 8)

end

end Fnord

namespace Fnord

/-- C9: Axial::opposite maps Right to Left, Up to Down, Left to Right, and
Down to Right (the Down arm of the source match returns Right, not Up). -/
theorem C9_axial_opposite_mapping :
    Axial.opposite Axial.Right = Axial.Left ∧
    Axial.opposite Axial.Up = Axial.Down ∧
    Axial.opposite Axial.Left = Axial.Right ∧
    Axial.opposite Axial.Down = Axial.Right :=
  ⟨rfl, rfl, rfl, rfl⟩

/-- C7: Margin::same(2).to_padding() is the Padding with the identical four
field values, and the two equal-valued insets act oppositely on a Rect:
adding the margin (centered) moves min outward by 2 and max outward by 2,
while adding the equal-valued padding moves min inward by 2 and max inward
by 2. -/
theorem C7_margin_padding_opposite_effect :
    (Margin.same 2).to_padding = Padding.mk 2 2 2 2 ∧
    ∀ r : Rect,
      r.add_margin_centered (Margin.same 2) =
        Rect.from_min_max ⟨r.min.x - 2, r.min.y - 2⟩ ⟨r.max.x + 2, r.max.y + 2⟩ ∧
      r.add_padding ((Margin.same 2).to_padding) =
        Rect.from_min_max ⟨r.min.x + 2, r.min.y + 2⟩ ⟨r.max.x - 2, r.max.y - 2⟩ := by
  refine ⟨rfl, fun r => ⟨?_, ?_⟩⟩ <;>
    simp [Rect.add_margin_centered, Rect.add_padding, Margin.same,
      Margin.to_padding, Rect.from_min_max] <;>
    norm_num

/-- C5: contains is the half-open test (min componentwise at most pos, pos
strictly below max componentwise); the rect (0,0)-(10,10) does not contain
(10,5) (max edge exclusive) but does contain (9.999,5). -/
theorem C5_contains_half_open :
    (∀ (r : Rect) (p : Pos),
      r.contains p ↔
        (r.min.x ≤ p.x ∧ r.min.y ≤ p.y ∧ p.x < r.max.x ∧ p.y < r.max.y)) ∧
    ¬ (Rect.new 0 0 10 10).contains ⟨10, 5⟩ ∧
    (Rect.new 0 0 10 10).contains ⟨9.999, 5⟩ := by
  refine ⟨fun r p => ?_, ?_, ?_⟩
  · unfold Rect.contains
    tauto
  · norm_num [Rect.contains, Rect.new, Rect.from_min_max]
  · norm_num [Rect.contains, Rect.new, Rect.from_min_max]

/-- C2: from_min_max with min componentwise at most max yields a well-formed
Rect, and from_points yields a well-formed Rect for any two points in any
order (it sorts them into min and max). -/
theorem C2_constructors_well_formed (mn mx p q : Pos) (h : mn.le mx) :
    (Rect.from_min_max mn mx).well_formed ∧
    (Rect.from_points p q).well_formed := by
  refine ⟨h, ?_⟩
  unfold Rect.well_formed Rect.from_points Pos.le Pos.min Pos.max
  exact ⟨le_trans (min_le_left _ _) (le_max_right _ _),
         le_trans (min_le_left _ _) (le_max_right _ _)⟩

theorem C2_constructors_well_formed_witness :
    (Rect.from_min_max ⟨0, 0⟩ ⟨3, 4⟩).well_formed ∧
    (Rect.from_points ⟨5, 1⟩ ⟨2, 9⟩).well_formed :=
  C2_constructors_well_formed ⟨0, 0⟩ ⟨3, 4⟩ ⟨5, 1⟩ ⟨2, 9⟩
    (by unfold Pos.le; norm_num)

/-- C10: rects that merely touch along a shared edge or corner (some max
bound of one equals the corresponding min bound of the other, as when
a.max.x = b.min.x) do not intersect, and their intersection is none: the
overlap test is strict on all four bounds. -/
theorem C10_adjacent_rects_disjoint (a b : Rect)
    (ha : a.well_formed) (hb : b.well_formed)
    (h : a.max.x = b.min.x ∨ b.max.x = a.min.x ∨
         a.max.y = b.min.y ∨ b.max.y = a.min.y) :
    ¬ a.intersects b ∧ a.intersection b = none := by
  have hni : ¬ a.intersects b := by
    intro hi
    obtain ⟨h1, h2, h3, h4⟩ := hi
    rcases h with h | h | h | h <;> linarith
  refine ⟨hni, ?_⟩
  unfold Rect.intersection
  rw [if_pos hni]

theorem C10_adjacent_rects_disjoint_witness :
    ¬ (Rect.from_min_max ⟨0, 0⟩ ⟨1, 1⟩).intersects
        (Rect.from_min_max ⟨1, 0⟩ ⟨2, 1⟩) ∧
    (Rect.from_min_max ⟨0, 0⟩ ⟨1, 1⟩).intersection
        (Rect.from_min_max ⟨1, 0⟩ ⟨2, 1⟩) = none :=
  C10_adjacent_rects_disjoint _ _
    (by unfold Rect.well_formed Rect.from_min_max Pos.le; norm_num)
    (by unfold Rect.well_formed Rect.from_min_max Pos.le; norm_num)
    (Or.inl (by norm_num [Rect.from_min_max]))

end Fnord

namespace Fnord

theorem intersects_comm (a b : Rect) : a.intersects b ↔ b.intersects a := by
  unfold Rect.intersects
  tauto

theorem normalize_angle_eq_self (θ : ℝ) (h0 : 0 ≤ θ) (h1 : θ < 2 * Real.pi) :
    normalize_angle θ = θ := by
  have hτ : (0:ℝ) < 2 * Real.pi := by positivity
  have hd : 0 ≤ θ / (2 * Real.pi) := div_nonneg h0 hτ.le
  have hfl : ⌊θ / (2 * Real.pi)⌋ = 0 := by
    rw [Int.floor_eq_zero_iff]
    exact ⟨hd, by rw [div_lt_one hτ]; linarith⟩
  have step1 : rust_rem θ TAU = θ := by
    unfold rust_rem f32_trunc TAU
    rw [if_pos hd, hfl]
    norm_num
  have hx : (θ + 2 * Real.pi) / (2 * Real.pi) = θ / (2 * Real.pi) + 1 := by
    field_simp
  have hd2 : 0 ≤ (θ + TAU) / TAU := by
    unfold TAU
    rw [hx]
    linarith [hd]
  have hfl2 : ⌊(θ + TAU) / TAU⌋ = 1 := by
    unfold TAU
    rw [hx, Int.floor_add_one, hfl]
    norm_num
  unfold normalize_angle
  rw [step1]
  unfold rust_rem f32_trunc
  rw [if_pos hd2, hfl2]
  unfold TAU
  norm_num

theorem angle_unit_x : Pos.angle ⟨1, 0⟩ = 0 := by
  norm_num [Pos.angle, atan2, Real.arctan_zero]

theorem angle_up : Pos.angle ⟨0, -1⟩ = Real.pi / 2 := by
  norm_num [Pos.angle, atan2]

/-- C3: for every Anchor, every well-formed Rect and every point p, placing
the anchor at p and reading the same anchor back returns exactly p, and the
placement holds the rect size fixed. -/
theorem C3_anchor_place_round_trip (r : Rect) (h : r.well_formed)
    (a : Anchor) (p : Pos) :
    (r.with_placed_anchor a p).anchor a = p ∧
    (r.with_placed_anchor a p).size = r.size := by
  cases a <;>
    refine ⟨by ext <;> simp [Rect.with_placed_anchor, Rect.place_anchor, Rect.anchor,
        Rect.set_left_top, Rect.set_left_center, Rect.set_left_bottom,
        Rect.set_bottom_center, Rect.set_right_bottom, Rect.set_right_center,
        Rect.set_right_top, Rect.set_top_center, Rect.set_center,
        Rect.left_top, Rect.left_center, Rect.left_bottom, Rect.bottom_center,
        Rect.right_bottom, Rect.right_center, Rect.right_top, Rect.top_center,
        Rect.center, Rect.size, Rect.width, Rect.height,
        Size.half, Size.half_width, Size.half_height, half, f32_midpoint,
        Pos.add_dims] <;> ring,
      by ext <;> simp [Rect.with_placed_anchor, Rect.place_anchor,
        Rect.set_left_top, Rect.set_left_center, Rect.set_left_bottom,
        Rect.set_bottom_center, Rect.set_right_bottom, Rect.set_right_center,
        Rect.set_right_top, Rect.set_top_center, Rect.set_center,
        Rect.size, Rect.width, Rect.height,
        Size.half, Size.half_width, Size.half_height, half, f32_midpoint,
        Pos.add_dims] <;> ring⟩

theorem C3_anchor_place_round_trip_witness :
    ((Rect.from_min_max ⟨0, 0⟩ ⟨2, 2⟩).with_placed_anchor Anchor.LeftCenter ⟨5, 7⟩).anchor
        Anchor.LeftCenter = ⟨5, 7⟩ ∧
    ((Rect.from_min_max ⟨0, 0⟩ ⟨2, 2⟩).with_placed_anchor Anchor.LeftCenter ⟨5, 7⟩).size =
        (Rect.from_min_max ⟨0, 0⟩ ⟨2, 2⟩).size :=
  C3_anchor_place_round_trip (Rect.from_min_max ⟨0, 0⟩ ⟨2, 2⟩)
    (by unfold Rect.well_formed Rect.from_min_max Pos.le; norm_num)
    Anchor.LeftCenter ⟨5, 7⟩

/-- C4: for each of the 8 non-center anchors, moving a well-formed rect to
the anchor and then to the opposite anchor (Anchor::invert) restores the
original rect; Center is a fixed point of moved_to_anchor. -/
theorem C4_opposite_anchor_involution (r : Rect) (h : r.well_formed)
    (a : Anchor) (ha : a ≠ Anchor.Center) :
    (r.moved_to_anchor a).moved_to_anchor a.invert = r ∧
    r.moved_to_anchor Anchor.Center = r := by
  refine ⟨?_, rfl⟩
  cases a
  case Center => exact absurd rfl ha
  all_goals
    ext <;> simp [Rect.moved_to_anchor, Rect.move_to_anchor, Anchor.invert,
      Rect.set_left_top, Rect.set_left_center, Rect.set_left_bottom,
      Rect.set_bottom_center, Rect.set_right_bottom, Rect.set_right_center,
      Rect.set_right_top, Rect.set_top_center, Rect.set_center,
      Rect.left_top, Rect.left_center, Rect.left_bottom, Rect.bottom_center,
      Rect.right_bottom, Rect.right_center, Rect.right_top, Rect.top_center,
      Rect.center, Rect.size, Rect.width, Rect.height,
      Size.half, Size.half_width, Size.half_height, half, f32_midpoint,
      Pos.add_dims] <;> ring

theorem C4_opposite_anchor_involution_witness :
    ((Rect.from_min_max ⟨0, 0⟩ ⟨3, 2⟩).moved_to_anchor Anchor.LeftTop).moved_to_anchor
        Anchor.LeftTop.invert = Rect.from_min_max ⟨0, 0⟩ ⟨3, 2⟩ ∧
    (Rect.from_min_max ⟨0, 0⟩ ⟨3, 2⟩).moved_to_anchor Anchor.Center =
        Rect.from_min_max ⟨0, 0⟩ ⟨3, 2⟩ :=
  C4_opposite_anchor_involution (Rect.from_min_max ⟨0, 0⟩ ⟨3, 2⟩)
    (by unfold Rect.well_formed Rect.from_min_max Pos.le; norm_num)
    Anchor.LeftTop (by decide)

/-- C6: for well-formed rects, intersection is symmetric; it is none exactly
when the rects do not intersect, and on overlap it is the tightest enclosing
box of the shared region (componentwise max of mins, min of maxes). -/
theorem C6_intersection_symmetric (a b : Rect)
    (ha : a.well_formed) (hb : b.well_formed) :
    a.intersection b = b.intersection a ∧
    (a.intersection b = none ↔ ¬ a.intersects b) ∧
    (a.intersects b →
      a.intersection b = some (Rect.from_min_max
        ⟨Max.max a.min.x b.min.x, Max.max a.min.y b.min.y⟩
        ⟨Min.min a.max.x b.max.x, Min.min a.max.y b.max.y⟩)) := by
  by_cases h : a.intersects b
  · have h' : b.intersects a := (intersects_comm a b).mp h
    refine ⟨?_, ?_, fun _ => ?_⟩
    · unfold Rect.intersection
      rw [if_neg (not_not_intro h), if_neg (not_not_intro h')]
      rw [max_comm b.min.x a.min.x, max_comm b.min.y a.min.y,
          min_comm b.max.x a.max.x, min_comm b.max.y a.max.y]
    · unfold Rect.intersection
      rw [if_neg (not_not_intro h)]
      simp [h]
    · unfold Rect.intersection
      rw [if_neg (not_not_intro h)]
  · have h' : ¬ b.intersects a := fun hba => h ((intersects_comm a b).mpr hba)
    refine ⟨?_, ?_, fun hc => absurd hc h⟩
    · unfold Rect.intersection
      rw [if_pos h, if_pos h']
    · unfold Rect.intersection
      rw [if_pos h]
      simp [h]

theorem C6_intersection_symmetric_witness :
    (Rect.from_min_max ⟨0, 0⟩ ⟨2, 2⟩).intersection (Rect.from_min_max ⟨1, 1⟩ ⟨3, 3⟩) =
      (Rect.from_min_max ⟨1, 1⟩ ⟨3, 3⟩).intersection (Rect.from_min_max ⟨0, 0⟩ ⟨2, 2⟩) ∧
    ((Rect.from_min_max ⟨0, 0⟩ ⟨2, 2⟩).intersection (Rect.from_min_max ⟨1, 1⟩ ⟨3, 3⟩) = none ↔
      ¬ (Rect.from_min_max ⟨0, 0⟩ ⟨2, 2⟩).intersects (Rect.from_min_max ⟨1, 1⟩ ⟨3, 3⟩)) ∧
    ((Rect.from_min_max ⟨0, 0⟩ ⟨2, 2⟩).intersects (Rect.from_min_max ⟨1, 1⟩ ⟨3, 3⟩) →
      (Rect.from_min_max ⟨0, 0⟩ ⟨2, 2⟩).intersection (Rect.from_min_max ⟨1, 1⟩ ⟨3, 3⟩) =
        some (Rect.from_min_max
          ⟨Max.max (Rect.from_min_max ⟨0, 0⟩ ⟨2, 2⟩).min.x
             (Rect.from_min_max ⟨1, 1⟩ ⟨3, 3⟩).min.x,
           Max.max (Rect.from_min_max ⟨0, 0⟩ ⟨2, 2⟩).min.y
             (Rect.from_min_max ⟨1, 1⟩ ⟨3, 3⟩).min.y⟩
          ⟨Min.min (Rect.from_min_max ⟨0, 0⟩ ⟨2, 2⟩).max.x
             (Rect.from_min_max ⟨1, 1⟩ ⟨3, 3⟩).max.x,
           Min.min (Rect.from_min_max ⟨0, 0⟩ ⟨2, 2⟩).max.y
             (Rect.from_min_max ⟨1, 1⟩ ⟨3, 3⟩).max.y⟩)) :=
  C6_intersection_symmetric (Rect.from_min_max ⟨0, 0⟩ ⟨2, 2⟩) (Rect.from_min_max ⟨1, 1⟩ ⟨3, 3⟩)
    (by unfold Rect.well_formed Rect.from_min_max Pos.le; norm_num)
    (by unfold Rect.well_formed Rect.from_min_max Pos.le; norm_num)

end Fnord

namespace Fnord

/-- C1 counterexample: the point (0,5) lies on the left edge of the rect
(0,0)-(10,10); it is contained (the half-open test includes the min edges)
yet its signed distance is 0, not negative, so sdf(p) < 0 is not equivalent
to contains(p). -/
theorem C1_sdf_contains_counterexample :
    (Rect.from_min_max ⟨0, 0⟩ ⟨10, 10⟩).contains ⟨0, 5⟩ ∧
    (Rect.from_min_max ⟨0, 0⟩ ⟨10, 10⟩).sdf ⟨0, 5⟩ = some 0 ∧
    ¬ ((0:ℝ) < 0) := by
  refine ⟨?_, ?_, by norm_num⟩
  · norm_num [Rect.contains, Rect.from_min_max]
  · unfold Rect.sdf Rect.from_min_max
    rw [if_pos (by norm_num), if_pos (by norm_num), if_pos (by norm_num),
        if_pos (by norm_num)]
    norm_num

/-- C1 (amended): for a well-formed rect, sdf always returns a value; that
value is negative exactly on the strict interior (min strictly below p
strictly below max componentwise) - contained points on the included min
edges have sdf = 0 - and on every contained point the value is the maximum
of the four edge-directed distances. -/
theorem C1_sdf_negative_iff_strict_interior (r : Rect) (p : Pos)
    (h : r.well_formed) :
    ∃ v, r.sdf p = some v ∧
      (v < 0 ↔ (r.min.x < p.x ∧ p.x < r.max.x ∧ r.min.y < p.y ∧ p.y < r.max.y)) ∧
      (r.contains p →
        v = Max.max (Max.max (Max.max (r.min.x - p.x) (p.x - r.max.x))
              (r.min.y - p.y)) (p.y - r.max.y)) := by
  obtain ⟨hwx, hwy⟩ := h
  unfold Rect.sdf
  by_cases h1 : p.x ≥ r.min.x
  · rw [if_pos h1]
    by_cases h2 : p.x < r.max.x
    · rw [if_pos h2]
      by_cases h3 : p.y ≥ r.min.y
      · rw [if_pos h3]
        by_cases h4 : p.y < r.max.y
        · rw [if_pos h4]
          refine ⟨_, rfl, ?_, fun _ => rfl⟩
          simp only [max_lt_iff]
          constructor
          · rintro ⟨⟨⟨hA, hB⟩, hC⟩, hD⟩
            exact ⟨by linarith, by linarith, by linarith, by linarith⟩
          · rintro ⟨hA, hB, hC, hD⟩
            exact ⟨⟨⟨by linarith, by linarith⟩, by linarith⟩, by linarith⟩
        · rw [if_neg h4]
          push_neg at h4
          refine ⟨_, rfl, ?_, fun hc => absurd hc.2.2.2 (by linarith)⟩
          constructor
          · intro hv; exfalso; linarith
          · rintro ⟨-, -, -, hD⟩; exfalso; linarith
      · rw [if_neg h3]
        push_neg at h3
        by_cases h4 : p.y < r.max.y
        · rw [if_pos h4]
          refine ⟨_, rfl, ?_, fun hc => absurd hc.2.1 (by linarith)⟩
          constructor
          · intro hv; exfalso; linarith
          · rintro ⟨-, -, hC, -⟩; exfalso; linarith
        · rw [if_neg h4]
          push_neg at h4
          exfalso; linarith
    · rw [if_neg h2]
      push_neg at h2
      by_cases h3 : p.y ≥ r.min.y
      · rw [if_pos h3]
        by_cases h4 : p.y < r.max.y
        · rw [if_pos h4]
          refine ⟨_, rfl, ?_, fun hc => absurd hc.2.2.1 (by linarith)⟩
          constructor
          · intro hv; exfalso; linarith
          · rintro ⟨-, hB, -, -⟩; exfalso; linarith
        · rw [if_neg h4]
          push_neg at h4
          refine ⟨_, rfl, ?_, fun hc => absurd hc.2.2.1 (by linarith)⟩
          constructor
          · intro hv
            exact absurd hv (not_lt.mpr (Real.sqrt_nonneg _))
          · rintro ⟨-, hB, -, -⟩; exfalso; linarith
      · rw [if_neg h3]
        push_neg at h3
        by_cases h4 : p.y < r.max.y
        · rw [if_pos h4]
          refine ⟨_, rfl, ?_, fun hc => absurd hc.2.2.1 (by linarith)⟩
          constructor
          · intro hv
            exact absurd hv (not_lt.mpr (Real.sqrt_nonneg _))
          · rintro ⟨-, hB, -, -⟩; exfalso; linarith
        · rw [if_neg h4]
          push_neg at h4
          exfalso; linarith
  · rw [if_neg h1]
    push_neg at h1
    by_cases h2 : p.x < r.max.x
    · rw [if_pos h2]
      by_cases h3 : p.y ≥ r.min.y
      · rw [if_pos h3]
        by_cases h4 : p.y < r.max.y
        · rw [if_pos h4]
          refine ⟨_, rfl, ?_, fun hc => absurd hc.1 (by linarith)⟩
          constructor
          · intro hv; exfalso; linarith
          · rintro ⟨hA, -, -, -⟩; exfalso; linarith
        · rw [if_neg h4]
          push_neg at h4
          refine ⟨_, rfl, ?_, fun hc => absurd hc.1 (by linarith)⟩
          constructor
          · intro hv
            exact absurd hv (not_lt.mpr (Real.sqrt_nonneg _))
          · rintro ⟨hA, -, -, -⟩; exfalso; linarith
      · rw [if_neg h3]
        push_neg at h3
        by_cases h4 : p.y < r.max.y
        · rw [if_pos h4]
          refine ⟨_, rfl, ?_, fun hc => absurd hc.1 (by linarith)⟩
          constructor
          · intro hv
            exact absurd hv (not_lt.mpr (Real.sqrt_nonneg _))
          · rintro ⟨hA, -, -, -⟩; exfalso; linarith
        · rw [if_neg h4]
          push_neg at h4
          exfalso; linarith
    · rw [if_neg h2]
      push_neg at h2
      exfalso; linarith

theorem C1_sdf_negative_iff_strict_interior_witness :
    ∃ v, (Rect.from_min_max ⟨0, 0⟩ ⟨4, 4⟩).sdf ⟨1, 1⟩ = some v ∧
      (v < 0 ↔ ((Rect.from_min_max ⟨0, 0⟩ ⟨4, 4⟩).min.x < (Pos.mk 1 1).x ∧
        (Pos.mk 1 1).x < (Rect.from_min_max ⟨0, 0⟩ ⟨4, 4⟩).max.x ∧
        (Rect.from_min_max ⟨0, 0⟩ ⟨4, 4⟩).min.y < (Pos.mk 1 1).y ∧
        (Pos.mk 1 1).y < (Rect.from_min_max ⟨0, 0⟩ ⟨4, 4⟩).max.y)) ∧
      ((Rect.from_min_max ⟨0, 0⟩ ⟨4, 4⟩).contains ⟨1, 1⟩ →
        v = Max.max (Max.max (Max.max
          ((Rect.from_min_max ⟨0, 0⟩ ⟨4, 4⟩).min.x - (Pos.mk 1 1).x)
          ((Pos.mk 1 1).x - (Rect.from_min_max ⟨0, 0⟩ ⟨4, 4⟩).max.x))
          ((Rect.from_min_max ⟨0, 0⟩ ⟨4, 4⟩).min.y - (Pos.mk 1 1).y))
          ((Pos.mk 1 1).y - (Rect.from_min_max ⟨0, 0⟩ ⟨4, 4⟩).max.y)) :=
  C1_sdf_negative_iff_strict_interior (Rect.from_min_max ⟨0, 0⟩ ⟨4, 4⟩) ⟨1, 1⟩
    (by unfold Rect.well_formed Rect.from_min_max Pos.le; norm_num)

/-- C8: evaluation of Pos::cardinal at the failing inputs of the claim.  The
octant arithmetic indexes octants counter-clockwise from due east, but the
transmute labels them by the declaration order Nw, W, Sw, S, Se, E, Ne, N,
so the unit vector along +x (due east) yields Cardinal::Nw (not Cardinal::E
as the claim states), and the unit vector along -y (up on screen, north)
yields Cardinal::Sw (not Cardinal::N). -/
theorem C8_cardinal_octant_mislabeled :
    Pos.cardinal ⟨1, 0⟩ = Cardinal.Nw ∧ Pos.cardinal ⟨0, -1⟩ = Cardinal.Sw := by
  have hπ := Real.pi_pos
  constructor
  · unfold Pos.cardinal
    rw [angle_unit_x]
    rw [show (0:ℝ) + FRAC_PI_8 = Real.pi / 8 by unfold FRAC_PI_8; ring]
    rw [normalize_angle_eq_self (Real.pi / 8) (by positivity) (by linarith)]
    rw [show Real.pi / 8 / FRAC_PI_4 = 1 / 2 by
      unfold FRAC_PI_4; field_simp; ring]
    rw [show ⌊(1:ℝ) / 2⌋ = (0:ℤ) by norm_num]
    rfl
  · unfold Pos.cardinal
    rw [angle_up]
    rw [show Real.pi / 2 + FRAC_PI_8 = 5 * Real.pi / 8 by unfold FRAC_PI_8; ring]
    rw [normalize_angle_eq_self (5 * Real.pi / 8) (by positivity) (by linarith)]
    rw [show 5 * Real.pi / 8 / FRAC_PI_4 = 5 / 2 by
      unfold FRAC_PI_4; field_simp; ring]
    rw [show ⌊(5:ℝ) / 2⌋ = (2:ℤ) by norm_num]
    rfl

end Fnord
